import Mathlib

/-!
Shallow embedding of the runtime type-introspection utilities of
src/index.ts, together with proofs of the specified properties.

The input domain of the TypeScript functions is the universe of JavaScript
runtime values. It is embedded as the inductive type Value below, covering
the built-in value categories the repository exercises (primitives, arrays,
plain objects, the three function flavours, and the built-in object kinds
Date, RegExp, Set, Map, WeakMap, WeakSet, Error, Promise, plus boxed
strings, symbols and big integers). Reference identity of objects is
modelled by a natural-number id carried by each object-like constructor:
two object values are the same reference exactly when they carry the same
id. Numbers are modelled by JSNum, which separates the special values NaN,
positive infinity and negative infinity from finite numbers (finite numbers
are modelled as integers; the fractional part plays no role in any claim).
Dates are modelled at a fixed timestamp (the repository constructs a single
date and never inspects its time).
-/

/-- Embedding of a JavaScript number: NaN, the two infinities, or a finite
number (modelled as an integer). -/
inductive JSNum where
  | nan
  | posInf
  | negInf
  | fin (n : Int)
deriving DecidableEq, Repr

/-- Embedding of a JavaScript runtime value. Object-like constructors carry
a Nat id standing for their reference identity. -/
inductive Value where
  | vBool (b : Bool)
  | vNum (n : JSNum)
  | vStr (s : String)
  | vBoxedString (id : Nat) (s : String)
  | vUndefined
  | vNull
  | vSymbol (id : Nat)
  | vBigInt (n : Int)
  | vArr (xs : List Value)
  | vObject (id : Nat)
  | vFunc (id : Nat)
  | vAsyncFunc (id : Nat)
  | vGenFunc (id : Nat)
  | vDate (id : Nat)
  | vRegexp (id : Nat)
  | vSet (id : Nat)
  | vMap (id : Nat)
  | vWeakMap (id : Nat)
  | vWeakSet (id : Nat)
  | vError (id : Nat)
  | vPromise (id : Nat)

/-- Strict equality of two numbers under the === operator: NaN is equal to
nothing (itself included), the infinities are each equal to themselves, and
finite numbers compare by value. -/
def numStrictEq : JSNum → JSNum → Bool
  | .nan, _ => false
  | _, .nan => false
  | .posInf, .posInf => true
  | .negInf, .negInf => true
  | .fin a, .fin b => a == b
  | _, _ => false

/-- Strict equality (the === operator) on values: primitives compare by
value (with the NaN exception), object-like values compare by reference
id. Two distinct array references compare unequal; aliasing of the same
array is outside this value model, and the source consults === on a pair
of arrays in no reachable path (areEqual handles that pair earlier). -/
def jsStrictEq : Value → Value → Bool
  | .vBool a, .vBool b => a == b
  | .vNum a, .vNum b => numStrictEq a b
  | .vStr a, .vStr b => a == b
  | .vUndefined, .vUndefined => true
  | .vNull, .vNull => true
  | .vSymbol i, .vSymbol j => i == j
  | .vBigInt a, .vBigInt b => a == b
  | .vObject i, .vObject j => i == j
  | .vFunc i, .vFunc j => i == j
  | .vAsyncFunc i, .vAsyncFunc j => i == j
  | .vGenFunc i, .vGenFunc j => i == j
  | .vDate i, .vDate j => i == j
  | .vRegexp i, .vRegexp j => i == j
  | .vSet i, .vSet j => i == j
  | .vMap i, .vMap j => i == j
  | .vWeakMap i, .vWeakMap j => i == j
  | .vWeakSet i, .vWeakSet j => i == j
  | .vError i, .vError j => i == j
  | .vPromise i, .vPromise j => i == j
  | .vBoxedString i _, .vBoxedString j _ => i == j
  | _, _ => false

/-- Model of the typeof operator: the coarse native type of a value. -/
def typeofStr : Value → String
  | .vBool _ => "boolean"
  | .vNum _ => "number"
  | .vStr _ => "string"
  | .vBoxedString _ _ => "object"
  | .vUndefined => "undefined"
  | .vNull => "object"
  | .vSymbol _ => "symbol"
  | .vBigInt _ => "bigint"
  | .vArr _ => "object"
  | .vObject _ => "object"
  | .vFunc _ => "function"
  | .vAsyncFunc _ => "function"
  | .vGenFunc _ => "function"
  | .vDate _ => "object"
  | .vRegexp _ => "object"
  | .vSet _ => "object"
  | .vMap _ => "object"
  | .vWeakMap _ => "object"
  | .vWeakSet _ => "object"
  | .vError _ => "object"
  | .vPromise _ => "object"

/-- Internal tag of a value: the word of the string returned by
Object.prototype.toString.call, between the word object and the closing
bracket. -/
def tagName : Value → String
  | .vBool _ => "Boolean"
  | .vNum _ => "Number"
  | .vStr _ => "String"
  | .vBoxedString _ _ => "String"
  | .vUndefined => "Undefined"
  | .vNull => "Null"
  | .vSymbol _ => "Symbol"
  | .vBigInt _ => "BigInt"
  | .vArr _ => "Array"
  | .vObject _ => "Object"
  | .vFunc _ => "Function"
  | .vAsyncFunc _ => "AsyncFunction"
  | .vGenFunc _ => "GeneratorFunction"
  | .vDate _ => "Date"
  | .vRegexp _ => "RegExp"
  | .vSet _ => "Set"
  | .vMap _ => "Map"
  | .vWeakMap _ => "WeakMap"
  | .vWeakSet _ => "WeakSet"
  | .vError _ => "Error"
  | .vPromise _ => "Promise"

/-- Model of Object.prototype.toString.call applied to a value. -/
def objectPrototypeToString (v : Value) : String :=
  "[object " ++ tagName v ++ "]"

/-- Whether a character is an ASCII letter, the character class of the
pattern used by getRealType. -/
def isAsciiLetter (c : Char) : Bool :=
  ('a' ≤ c && c ≤ 'z') || ('A' ≤ c && c ≤ 'Z')

/-- Longest run of ASCII letters at the front of a character list: the
greedy capture of a one-or-more letter group. -/
def takeLetters : List Char → List Char
  | [] => []
  | c :: cs => if isAsciiLetter c then c :: takeLetters cs else []

/-- Model of matching the regular expression of getRealType (a whitespace
character followed by a captured nonempty run of ASCII letters) against a
character list, returning the first capture when the match succeeds and
none when it fails (the JavaScript match call returns null then). -/
def matchSpaceLetters : List Char → Option (List Char)
  | [] => none
  | c :: cs =>
    if c.isWhitespace && (match cs with
        | d :: _ => isAsciiLetter d
        | [] => false) then
      some (takeLetters cs)
    else
      matchSpaceLetters cs

/-- Model of Number.isNaN: true exactly for the NaN number value. -/
def numberIsNaN : Value → Bool
  | .vNum .nan => true
  | _ => false

/-- Embedding of getRealType of src/index.ts. The error branch models the
TypeError thrown when the match call returns null and the code indexes
into it. -/
def getRealType (value : Value) : Except String String :=
  if numberIsNaN value then .ok "NaN"
  else if jsStrictEq value (.vNum .posInf) then .ok "Infinity"
  else
    match matchSpaceLetters (objectPrototypeToString value).data with
    | some cs => .ok (String.mk (cs.map Char.toLower))
    | none => .error "TypeError"

/-- Total projection of getRealType. The theorem getRealType_eq_ok below
shows the error branch is unreachable, so this projection loses nothing. -/
def realTypeOf (value : Value) : String :=
  match getRealType value with
  | .ok s => s
  | .error _ => ""

/-- Embedding of getType of src/index.ts: the typeof operator. -/
def getType (value : Value) : String :=
  typeofStr value

/-- Embedding of getTypesOfItems of src/index.ts. -/
def getTypesOfItems (arr : List Value) : List String :=
  arr.map getType

/-- Size of the set built from a list: the number of distinct elements,
modelling the size of a Set constructed from an array. -/
def newSetSize {α : Type} [DecidableEq α] (l : List α) : Nat :=
  l.dedup.length

/-- Embedding of allItemsHaveTheSameType of src/index.ts. -/
def allItemsHaveTheSameType (arr : List Value) : Bool :=
  newSetSize (getTypesOfItems arr) == 1

/-- Embedding of getRealTypesOfItems of src/index.ts. -/
def getRealTypesOfItems (arr : List Value) : List String :=
  arr.map realTypeOf

/-- Embedding of everyItemHasAUniqueRealType of src/index.ts. -/
def everyItemHasAUniqueRealType (arr : List Value) : Bool :=
  newSetSize (getRealTypesOfItems arr) == arr.length

/-- One step of the frequency fold of countRealTypes: increment the count
of a tag in an insertion-ordered association list, appending a fresh entry
with count one when the tag is absent. This models the object used as a
map together with the key order of Object.entries (string keys that are
not array indices are listed in insertion order; every tag is such a key). -/
def bumpCount : List (String × Nat) → String → List (String × Nat)
  | [], t => [(t, 1)]
  | (k, c) :: rest, t =>
    if k = t then (k, c + 1) :: rest else (k, c) :: bumpCount rest t

/-- Embedding of countRealTypes of src/index.ts: map to real types, sort
(the default array sort compares strings), fold into the frequency map,
and read the entries off in key order. -/
def countRealTypes (arr : List Value) : List (String × Nat) :=
  (List.mergeSort (getRealTypesOfItems arr) (fun a b => decide (a ≤ b))).foldl
    bumpCount []

/-- Serialisation of a number under JSON.stringify: the special values NaN
and the infinities serialise as null, finite numbers in decimal. -/
def jsonNum : JSNum → String
  | .nan => "null"
  | .posInf => "null"
  | .negInf => "null"
  | .fin i => toString i

/-- Escape of one character inside a JSON string literal. -/
def jsonEscapeChar (c : Char) : String :=
  if c = '"' then "\\\""
  else if c = '\\' then "\\\\"
  else if c = '\n' then "\\n"
  else if c = '\r' then "\\r"
  else if c = '\t' then "\\t"
  else String.singleton c

/-- JSON string literal for a string value. -/
def jsonQuote (s : String) : String :=
  "\"" ++ String.join (s.data.map jsonEscapeChar) ++ "\""

mutual

/-- Model of JSON.stringify of a value in array-element position: undefined,
functions and symbols serialise as null there, the object kinds without
enumerable own properties serialise as an empty object, boxed strings as
their string, dates as the fixed ISO string of the model, and a big integer
makes JSON.stringify throw (the none result). -/
def jsonElem : Value → Option String
  | .vBool b => some (if b then "true" else "false")
  | .vNum n => some (jsonNum n)
  | .vStr s => some (jsonQuote s)
  | .vBoxedString _ s => some (jsonQuote s)
  | .vUndefined => some "null"
  | .vNull => some "null"
  | .vSymbol _ => some "null"
  | .vBigInt _ => none
  | .vArr xs =>
    match jsonList xs with
    | some ss => some ("[" ++ String.intercalate "," ss ++ "]")
    | none => none
  | .vObject _ => some "{}"
  | .vFunc _ => some "null"
  | .vAsyncFunc _ => some "null"
  | .vGenFunc _ => some "null"
  | .vDate _ => some (jsonQuote "1970-01-01T00:00:00.000Z")
  | .vRegexp _ => some "{}"
  | .vSet _ => some "{}"
  | .vMap _ => some "{}"
  | .vWeakMap _ => some "{}"
  | .vWeakSet _ => some "{}"
  | .vError _ => some "{}"
  | .vPromise _ => some "{}"

/-- Serialisations of the elements of an array, failing when any element
fails. -/
def jsonList : List Value → Option (List String)
  | [] => some []
  | v :: vs =>
    match jsonElem v, jsonList vs with
    | some s, some ss => some (s :: ss)
    | _, _ => none

end

/-- Embedding of areEqual of src/index.ts. When both arguments are arrays
the helper compares lengths, rejects the empty length, and otherwise
compares the JSON serialisations of the two arrays; any other pair of
arguments is compared with strict equality. The none result models the
exception JSON.stringify can throw (on big integers). -/
def areEqual (a b : Value) : Option Bool :=
  match a, b with
  | .vArr xs, .vArr ys =>
    if xs.length ≠ ys.length then some false
    else if xs.length = 0 then some false
    else
      match jsonElem (.vArr xs), jsonElem (.vArr ys) with
      | some sa, some sb => some (sa == sb)
      | _, _ => none
  | a, b => some (jsStrictEq a b)

theorem getRealType_eq_ok (v : Value) :
    getRealType v = Except.ok (realTypeOf v) := by
  cases v with
  | vNum n => cases n <;> rfl
  | vBool b => rfl
  | vStr s => rfl
  | vBoxedString i s => rfl
  | vUndefined => rfl
  | vNull => rfl
  | vSymbol i => rfl
  | vBigInt n => rfl
  | vArr xs => rfl
  | vObject i => rfl
  | vFunc i => rfl
  | vAsyncFunc i => rfl
  | vGenFunc i => rfl
  | vDate i => rfl
  | vRegexp i => rfl
  | vSet i => rfl
  | vMap i => rfl
  | vWeakMap i => rfl
  | vWeakSet i => rfl
  | vError i => rfl
  | vPromise i => rfl

/-- C1: classify maps the special values exactly as specified: NaN to the
tag NaN, positive infinity to the tag Infinity, negative infinity to the
tag number (it is not special-cased), and null to the tag null. -/
theorem claim_C1 :
    getRealType (.vNum .nan) = .ok "NaN" ∧
    getRealType (.vNum .posInf) = .ok "Infinity" ∧
    getRealType (.vNum .negInf) = .ok "number" ∧
    getRealType .vNull = .ok "null" :=
  ⟨rfl, rfl, rfl, rfl⟩

/-- C2: classify is total: for every value the internal-tag probe and the
pattern extraction succeed, so getRealType always returns ok and the error
branch is unreachable. -/
theorem claim_C2 : ∀ v : Value, (getRealType v).isOk = true := by
  intro v
  rw [getRealType_eq_ok]
  rfl

/-- C3: classify is a priority chain: for every value that is neither NaN
nor positive infinity it returns the lower-cased internal tag, the returned
tag is never empty, and NaN and Infinity are the only returned tags with an
uppercase letter. -/
theorem claim_C3 : ∀ v : Value,
    (numberIsNaN v = false ∧ jsStrictEq v (Value.vNum JSNum.posInf) = false →
      getRealType v = Except.ok (String.mk ((tagName v).data.map Char.toLower))) ∧
    realTypeOf v ≠ "" ∧
    (realTypeOf v = "NaN" ∨ realTypeOf v = "Infinity" ∨
      (realTypeOf v).data.all (fun c => !c.isUpper) = true) := by
  intro v
  cases v with
  | vNum n =>
    cases n with
    | nan => exact ⟨fun h => absurd h.1 (by decide), by decide, Or.inl rfl⟩
    | posInf =>
      exact ⟨fun h => absurd h.2 (by decide), by decide, Or.inr (Or.inl rfl)⟩
    | negInf => exact ⟨fun _ => rfl, by decide, Or.inr (Or.inr (by decide))⟩
    | fin i =>
      have h : realTypeOf (Value.vNum (JSNum.fin i)) = "number" := rfl
      exact ⟨fun _ => rfl, by rw [h]; decide, Or.inr (Or.inr (by rw [h]; decide))⟩
  | vBool b =>
    have h : realTypeOf (Value.vBool b) = "boolean" := rfl
    exact ⟨fun _ => rfl, by rw [h]; decide, Or.inr (Or.inr (by rw [h]; decide))⟩
  | vStr s =>
    have h : realTypeOf (Value.vStr s) = "string" := rfl
    exact ⟨fun _ => rfl, by rw [h]; decide, Or.inr (Or.inr (by rw [h]; decide))⟩
  | vBoxedString i s =>
    have h : realTypeOf (Value.vBoxedString i s) = "string" := rfl
    exact ⟨fun _ => rfl, by rw [h]; decide, Or.inr (Or.inr (by rw [h]; decide))⟩
  | vUndefined => exact ⟨fun _ => rfl, by decide, Or.inr (Or.inr (by decide))⟩
  | vNull => exact ⟨fun _ => rfl, by decide, Or.inr (Or.inr (by decide))⟩
  | vSymbol i =>
    have h : realTypeOf (Value.vSymbol i) = "symbol" := rfl
    exact ⟨fun _ => rfl, by rw [h]; decide, Or.inr (Or.inr (by rw [h]; decide))⟩
  | vBigInt n =>
    have h : realTypeOf (Value.vBigInt n) = "bigint" := rfl
    exact ⟨fun _ => rfl, by rw [h]; decide, Or.inr (Or.inr (by rw [h]; decide))⟩
  | vArr xs =>
    have h : realTypeOf (Value.vArr xs) = "array" := rfl
    exact ⟨fun _ => rfl, by rw [h]; decide, Or.inr (Or.inr (by rw [h]; decide))⟩
  | vObject i =>
    have h : realTypeOf (Value.vObject i) = "object" := rfl
    exact ⟨fun _ => rfl, by rw [h]; decide, Or.inr (Or.inr (by rw [h]; decide))⟩
  | vFunc i =>
    have h : realTypeOf (Value.vFunc i) = "function" := rfl
    exact ⟨fun _ => rfl, by rw [h]; decide, Or.inr (Or.inr (by rw [h]; decide))⟩
  | vAsyncFunc i =>
    have h : realTypeOf (Value.vAsyncFunc i) = "asyncfunction" := rfl
    exact ⟨fun _ => rfl, by rw [h]; decide, Or.inr (Or.inr (by rw [h]; decide))⟩
  | vGenFunc i =>
    have h : realTypeOf (Value.vGenFunc i) = "generatorfunction" := rfl
    exact ⟨fun _ => rfl, by rw [h]; decide, Or.inr (Or.inr (by rw [h]; decide))⟩
  | vDate i =>
    have h : realTypeOf (Value.vDate i) = "date" := rfl
    exact ⟨fun _ => rfl, by rw [h]; decide, Or.inr (Or.inr (by rw [h]; decide))⟩
  | vRegexp i =>
    have h : realTypeOf (Value.vRegexp i) = "regexp" := rfl
    exact ⟨fun _ => rfl, by rw [h]; decide, Or.inr (Or.inr (by rw [h]; decide))⟩
  | vSet i =>
    have h : realTypeOf (Value.vSet i) = "set" := rfl
    exact ⟨fun _ => rfl, by rw [h]; decide, Or.inr (Or.inr (by rw [h]; decide))⟩
  | vMap i =>
    have h : realTypeOf (Value.vMap i) = "map" := rfl
    exact ⟨fun _ => rfl, by rw [h]; decide, Or.inr (Or.inr (by rw [h]; decide))⟩
  | vWeakMap i =>
    have h : realTypeOf (Value.vWeakMap i) = "weakmap" := rfl
    exact ⟨fun _ => rfl, by rw [h]; decide, Or.inr (Or.inr (by rw [h]; decide))⟩
  | vWeakSet i =>
    have h : realTypeOf (Value.vWeakSet i) = "weakset" := rfl
    exact ⟨fun _ => rfl, by rw [h]; decide, Or.inr (Or.inr (by rw [h]; decide))⟩
  | vError i =>
    have h : realTypeOf (Value.vError i) = "error" := rfl
    exact ⟨fun _ => rfl, by rw [h]; decide, Or.inr (Or.inr (by rw [h]; decide))⟩
  | vPromise i =>
    have h : realTypeOf (Value.vPromise i) = "promise" := rfl
    exact ⟨fun _ => rfl, by rw [h]; decide, Or.inr (Or.inr (by rw [h]; decide))⟩

/-- C5: allItemsHaveTheSameType is true exactly when the set of shallow
types of the elements has one member, and the empty sequence gives false. -/
theorem claim_C5 : ∀ s : List Value,
    (allItemsHaveTheSameType s = true ↔ (s.map getType).toFinset.card = 1) ∧
    allItemsHaveTheSameType ([] : List Value) = false := by
  intro s
  constructor
  · simp [allItemsHaveTheSameType, newSetSize, getTypesOfItems,
      List.card_toFinset]
  · rfl

/-- C6: everyItemHasAUniqueRealType is true exactly when the number of
distinct real types of the elements equals the length of the sequence, and
the empty sequence gives true. -/
theorem claim_C6 : ∀ s : List Value,
    (everyItemHasAUniqueRealType s = true ↔
      (s.map realTypeOf).toFinset.card = s.length) ∧
    everyItemHasAUniqueRealType ([] : List Value) = true := by
  intro s
  constructor
  · simp [everyItemHasAUniqueRealType, newSetSize, getRealTypesOfItems,
      List.card_toFinset]
  · rfl

/-- C7: getRealTypesOfItems preserves length, and its i-th element is the
real type of the i-th input element; moreover that element is exactly the
ok value getRealType returns there. -/
theorem claim_C7 : ∀ s : List Value,
    (getRealTypesOfItems s).length = s.length ∧
    ∀ i : Nat,
      (getRealTypesOfItems s)[i]? = (s[i]?).map realTypeOf ∧
      (s[i]?).map getRealType = ((getRealTypesOfItems s)[i]?).map Except.ok := by
  intro s
  refine ⟨by simp [getRealTypesOfItems], fun i => ⟨?_, ?_⟩⟩
  · rw [getRealTypesOfItems, List.getElem?_map]
  · rw [getRealTypesOfItems, List.getElem?_map]
    cases h : s[i]? with
    | none => rfl
    | some v => simp [getRealType_eq_ok]

/-- C9: classify is deterministic: two calls of getRealType on the same
value return the same result. -/
theorem claim_C9 (v : Value) (t1 t2 : Except String String)
    (h1 : getRealType v = t1) (h2 : getRealType v = t2) : t1 = t2 :=
  h1.symm.trans h2

theorem claim_C9_witness :
    (Except.ok "null" : Except String String) = Except.ok "null" :=
  claim_C9 Value.vNull (Except.ok "null") (Except.ok "null") rfl rfl

theorem bumpCount_keys (m : List (String × Nat)) (t : String) :
    (bumpCount m t).map Prod.fst =
      if t ∈ m.map Prod.fst then m.map Prod.fst
      else m.map Prod.fst ++ [t] := by
  induction m with
  | nil => simp [bumpCount]
  | cons p rest ih =>
    obtain ⟨k, c⟩ := p
    by_cases hk : k = t
    · subst hk
      simp [bumpCount]
    · simp only [bumpCount, if_neg hk, List.map_cons, List.mem_cons]
      rw [ih]
      by_cases hm : t ∈ rest.map Prod.fst
      · simp [hm, Ne.symm hk]
      · simp [hm, Ne.symm hk]

theorem bumpCount_sum (m : List (String × Nat)) (t : String) :
    ((bumpCount m t).map Prod.snd).sum = ((m.map Prod.snd).sum) + 1 := by
  induction m with
  | nil => simp [bumpCount]
  | cons p rest ih =>
    obtain ⟨k, c⟩ := p
    by_cases hk : k = t
    · subst hk
      simp [bumpCount]
      omega
    · simp [bumpCount, hk, ih]
      omega

theorem bumpCount_pos :
    ∀ (m : List (String × Nat)) (t : String), (∀ p ∈ m, 1 ≤ p.2) →
      ∀ p ∈ bumpCount m t, 1 ≤ p.2 := by
  intro m t
  induction m with
  | nil =>
    intro _ p hp
    simp [bumpCount] at hp
    subst hp
    exact le_refl 1
  | cons q rest ih =>
    obtain ⟨k, c⟩ := q
    intro hm p hp
    by_cases hk : k = t
    · subst hk
      simp only [bumpCount, if_pos, List.mem_cons] at hp
      rcases hp with h | h
      · subst h
        simp
      · exact hm p (List.mem_cons_of_mem _ h)
    · simp only [bumpCount, if_neg hk, List.mem_cons] at hp
      rcases hp with h | h
      · subst h
        exact hm (k, c) (List.mem_cons_self _ _)
      · exact ih (fun q hq => hm q (List.mem_cons_of_mem _ hq)) p h

theorem foldl_bumpCount_sum :
    ∀ (ts : List String) (m : List (String × Nat)),
      (((ts.foldl bumpCount m)).map Prod.snd).sum =
        (m.map Prod.snd).sum + ts.length := by
  intro ts
  induction ts with
  | nil => intro m; simp
  | cons t ts ih =>
    intro m
    simp only [List.foldl_cons, List.length_cons]
    rw [ih, bumpCount_sum]
    omega

theorem foldl_bumpCount_pos :
    ∀ (ts : List String) (m : List (String × Nat)), (∀ p ∈ m, 1 ≤ p.2) →
      ∀ p ∈ ts.foldl bumpCount m, 1 ≤ p.2 := by
  intro ts
  induction ts with
  | nil => intro m hm; simpa using hm
  | cons t ts ih =>
    intro m hm
    simp only [List.foldl_cons]
    exact ih (bumpCount m t) (bumpCount_pos m t hm)

theorem foldl_bumpCount_nodup :
    ∀ (ts : List String) (m : List (String × Nat)),
      (m.map Prod.fst).Nodup → ((ts.foldl bumpCount m).map Prod.fst).Nodup := by
  intro ts
  induction ts with
  | nil => intro m hm; simpa using hm
  | cons t ts ih =>
    intro m hm
    simp only [List.foldl_cons]
    apply ih (bumpCount m t)
    rw [bumpCount_keys]
    split_ifs with hmem
    · exact hm
    · simp [List.nodup_append, hm, hmem]

theorem foldl_bumpCount_sorted :
    ∀ (ts : List String) (m : List (String × Nat)),
      (m.map Prod.fst).Pairwise (fun a b => a < b) →
      ts.Pairwise (fun a b => a ≤ b) →
      (∀ k ∈ m.map Prod.fst, ∀ t ∈ ts, k ≤ t) →
      ((ts.foldl bumpCount m).map Prod.fst).Pairwise (fun a b => a < b) := by
  intro ts
  induction ts with
  | nil => intro m hm _ _; simpa using hm
  | cons t ts ih =>
    intro m hm hts hb
    simp only [List.foldl_cons]
    apply ih (bumpCount m t)
    · rw [bumpCount_keys]
      split_ifs with hmem
      · exact hm
      · rw [List.pairwise_append]
        refine ⟨hm, List.pairwise_singleton _ _, ?_⟩
        intro a ha b hb2
        simp only [List.mem_singleton] at hb2
        have hat : a < t :=
          lt_of_le_of_ne (hb a ha t (List.mem_cons_self _ _))
            (fun he => hmem (he ▸ ha))
        rw [hb2]
        exact hat
    · exact hts.of_cons
    · intro k hk u hu
      rw [bumpCount_keys] at hk
      split_ifs at hk with hmem
      · exact hb k hk u (List.mem_cons_of_mem _ hu)
      · rcases List.mem_append.mp hk with h | h
        · exact hb k h u (List.mem_cons_of_mem _ hu)
        · simp only [List.mem_singleton] at h
          subst h
          exact (List.pairwise_cons.mp hts).1 u hu

theorem sorted_le_realTypes (s : List Value) :
    (List.mergeSort (getRealTypesOfItems s)
        (fun a b => decide (a ≤ b))).Pairwise (fun a b : String => a ≤ b) := by
  have hs : (List.mergeSort (getRealTypesOfItems s)
      (fun a b => decide (a ≤ b))).Pairwise
        (fun a b : String => decide (a ≤ b) = true) := by
    apply List.sorted_mergeSort
    · intro a b c hab hbc
      exact decide_eq_true (le_trans (of_decide_eq_true hab)
        (of_decide_eq_true hbc))
    · intro a b
      rcases le_total a b with h | h <;> simp [h]
  exact hs.imp (fun h => of_decide_eq_true h)

/-- C4: the entries of countRealTypes are sorted in strictly ascending
lexicographic order by tag, and the counts sum to the length of the input
sequence. -/
theorem claim_C4 : ∀ s : List Value,
    ((countRealTypes s).map Prod.fst).Pairwise (fun a b => a < b) ∧
    ((countRealTypes s).map Prod.snd).sum = s.length := by
  intro s
  constructor
  · rw [countRealTypes]
    apply foldl_bumpCount_sorted
    · simp
    · exact sorted_le_realTypes s
    · simp
  · rw [countRealTypes, foldl_bumpCount_sum]
    simp [getRealTypesOfItems]

/-- C10: the tags of the entries of countRealTypes are pairwise distinct,
every emitted count is at least one, and the empty input gives the empty
output. -/
theorem claim_C10 : ∀ s : List Value,
    ((countRealTypes s).map Prod.fst).Nodup ∧
    (∀ p ∈ countRealTypes s, 1 ≤ p.2) ∧
    countRealTypes ([] : List Value) = [] := by
  intro s
  refine ⟨?_, ?_, by simp [countRealTypes, getRealTypesOfItems]⟩
  · rw [countRealTypes]
    exact foldl_bumpCount_nodup _ [] (by simp)
  · rw [countRealTypes]
    exact foldl_bumpCount_pos _ [] (by simp)

/-- C8 (amended): the sequence-equality helper declares two sequences equal
exactly when they have the same length, that length is non-zero, and their
JSON serialisations succeed and coincide; element-wise equal non-empty
sequences of equal length are always declared equal, and two empty
sequences are declared unequal. Element-wise equality is not necessary for
being declared equal: distinct values serialising identically (such as NaN
and null) make the helper answer true. -/
theorem claim_C8 : ∀ a b : List Value,
    (areEqual (.vArr a) (.vArr b) = some true ↔
      a.length = b.length ∧ a.length ≠ 0 ∧
      (jsonElem (Value.vArr a)).isSome = true ∧
      jsonElem (Value.vArr a) = jsonElem (Value.vArr b)) ∧
    (a = b ∧ a ≠ [] ∧ (jsonElem (Value.vArr a)).isSome = true →
      areEqual (.vArr a) (.vArr b) = some true) ∧
    areEqual (Value.vArr ([] : List Value)) (Value.vArr ([] : List Value)) =
      some false := by
  intro a b
  have harr : areEqual (Value.vArr a) (Value.vArr b) =
      if a.length ≠ b.length then some false
      else if a.length = 0 then some false
      else
        match jsonElem (Value.vArr a), jsonElem (Value.vArr b) with
        | some sa, some sb => some (sa == sb)
        | _, _ => none := rfl
  refine ⟨⟨?_, ?_⟩, ?_, rfl⟩
  · intro h
    rw [harr] at h
    by_cases hl : a.length = b.length
    · by_cases h0 : a.length = 0
      · rw [if_neg (fun hc => hc hl), if_pos h0] at h
        simp at h
      · rw [if_neg (fun hc => hc hl), if_neg h0] at h
        refine ⟨hl, h0, ?_⟩
        cases hja : jsonElem (Value.vArr a) with
        | none =>
          rw [hja] at h
          cases hjb : jsonElem (Value.vArr b) with
          | none => rw [hjb] at h; simp at h
          | some sb => rw [hjb] at h; simp at h
        | some sa =>
          rw [hja] at h
          cases hjb : jsonElem (Value.vArr b) with
          | none => rw [hjb] at h; simp at h
          | some sb =>
            rw [hjb] at h
            simp only [Option.some.injEq] at h
            exact ⟨rfl, congrArg some (eq_of_beq h)⟩
    · rw [if_pos hl] at h
      simp at h
  · rintro ⟨hl, h0, hsome, heq⟩
    rw [harr, if_neg (fun hc => hc hl), if_neg h0]
    obtain ⟨sa, hsa⟩ := Option.isSome_iff_exists.mp hsome
    have hb2 : jsonElem (Value.vArr b) = some sa := heq.symm.trans hsa
    rw [hsa, hb2]
    simp
  · rintro ⟨rfl, hne, hsome⟩
    rw [harr, if_neg (fun hc => hc rfl),
      if_neg (fun h0 => hne (List.length_eq_zero.mp h0))]
    obtain ⟨sa, hsa⟩ := Option.isSome_iff_exists.mp hsome
    rw [hsa]
    simp

/-- C8, counterexample to the claim as stated: the singleton sequences
holding NaN and null have the same non-zero length and are not element-wise
equal, yet the helper declares them equal, because both serialise to the
same JSON text. -/
theorem claim_C8_counterexample :
    areEqual (.vArr [.vNum .nan]) (.vArr [.vNull]) = some true ∧
    [Value.vNum JSNum.nan] ≠ [Value.vNull] ∧
    jsStrictEq (Value.vNum JSNum.nan) Value.vNull = false := by
  refine ⟨rfl, ?_, rfl⟩
  intro h
  injection h with h1 _
  exact Value.noConfusion h1
